import Mathlib

/-
Verification development for the class-ai-hub dubbing pipeline
(src/backend/dub_video.py and src/backend/dub_to_english.py).

The Python code is shallowly embedded as executable Lean definitions.
External collaborators (ffmpeg, ffprobe, pydub, the TTS and translation
libraries) are modelled at their documented contracts through explicit
oracle arguments:
  - an ffprobe duration query is an argument of type Option Rat
    (none models a probe whose output cannot be parsed, which raises
    inside the Python try block);
  - the file system is an argument of type String -> Option (List Int)
    (none models a missing or undecodable file, some clip models a
    decodable audio file given as its per-millisecond sample list);
  - model loading is an argument of type String -> Option Handle.
Durations are rationals measured in seconds; audio buffers are lists of
integer samples, one per millisecond, which matches the millisecond
granularity pydub uses.  Python int() truncation on nonnegative values
is floor.
-/

namespace ClassAiHub

/-! ## TimingReconciler: adjust_audio_speed (dub_video.py lines 101-126,
dub_to_english.py lines 82-111) -/

/-- Result of adjust_audio_speed, describing what ends up at output_path:
either a byte-for-byte copy of the input clip (shutil.copy branches) or
the input filtered through a chain of ffmpeg atempo stages. -/
inductive SpeedAdjustResult where
  | copied
  | scaled (chain : List ℚ)
deriving DecidableEq

/-- Line 114: speed = max(0.5, min(2.5, speed)). -/
def clampSpeed (s : ℚ) : ℚ := max (1/2) (min (5/2) s)

/-- Lines 116-119: the atempo filter chain built from the clamped speed. -/
def atempo_chain (speed : ℚ) : List ℚ :=
  if 2 < speed then [speed/2, 2] else [speed]

/-- Lines 101-126 of dub_video.py.  probe is the parsed ffprobe duration
of the input clip (none when parsing raises, taking the except branch);
target_duration is the segment slot length. -/
def adjust_audio_speed (probe : Option ℚ) (target_duration : ℚ) : SpeedAdjustResult :=
  match probe with
  | none => .copied
  | some current_duration =>
    if current_duration ≤ 0 ∨ target_duration ≤ 0 then .copied
    else .scaled (atempo_chain (clampSpeed (current_duration / target_duration)))

/-- Duration of the clip written to output_path, given that the input
clip really lasts input_duration seconds: a copy keeps the duration, and
each atempo stage with factor f divides the duration by f. -/
def output_duration (probe : Option ℚ) (target_duration input_duration : ℚ) : ℚ :=
  match adjust_audio_speed probe target_duration with
  | .copied => input_duration
  | .scaled chain => input_duration / chain.prod

/-! ## TrackCompositor: merge_with_timing (dub_video.py lines 309-334,
dub_to_english.py lines 131-160) -/

/-- Entry of the tts_segments list built in create_dub_track. -/
structure TTSSeg where
  index : ℕ
  start : ℚ
  stop : ℚ
  text : String
  tts_file : String
deriving DecidableEq

/-- int(q * 1000): seconds to milliseconds, truncated (q is nonnegative
in every call site, so Python truncation is floor). -/
def msOf (q : ℚ) : ℕ := (⌊q * 1000⌋).toNat

/-- pydub overlay contract: mix clip additively into base starting at
position pos (milliseconds), truncating the clip at the end of base. -/
def overlayAt (base clip : List ℤ) (pos : ℕ) : List ℤ :=
  match base, pos with
  | [], _ => []
  | b :: bs, 0 =>
    match clip with
    | [] => b :: bs
    | c :: cs => (b + c) :: overlayAt bs cs 0
  | b :: bs, p + 1 => b :: overlayAt bs clip p

/-- Body of the for loop of merge_with_timing: a clip whose file is
missing (or which cannot be decoded, the inner except) is skipped,
otherwise it is overlaid at int(seg.start * 1000) milliseconds. -/
def mergeStep (fs : String → Option (List ℤ)) (base : List ℤ) (seg : TTSSeg) : List ℤ :=
  match fs seg.tts_file with
  | none => base
  | some clip => overlayAt base clip (msOf seg.start)

/-- merge_with_timing: start from AudioSegment.silent of
int(total_duration * 1000) milliseconds and fold the clips over it in
list order (the caller builds the list in increasing start order). -/
def merge_with_timing (fs : String → Option (List ℤ)) (segments : List TTSSeg)
    (total_duration : ℚ) : List ℤ :=
  segments.foldl (mergeStep fs) (List.replicate (msOf total_duration) 0)

/-- Duration in seconds of the merged file produced by create_dub_track
(dub_video.py lines 402-413): a nonempty tts_segments list goes through
merge_with_timing, an empty one through the ffmpeg anullsrc command with
-t total_duration, which yields a silent track of exactly that length. -/
def create_dub_track_duration (fs : String → Option (List ℤ)) (tts_segments : List TTSSeg)
    (total_duration : ℚ) : ℚ :=
  if tts_segments.isEmpty then total_duration
  else ((merge_with_timing fs tts_segments total_duration).length : ℚ) / 1000

/-! ## SegmentSanitizer: clean_translation_text (dub_video.py lines 74-99,
dub_to_english.py lines 55-80).  The Python function applies four regex
substitutions, collapses whitespace, strips leading punctuation, strips,
and capitalizes.  Each regex is rendered as an executable scanner with
the exact semantics of re.sub on the pattern (leftmost non-overlapping
matches, lazy dot not crossing a newline, ASCII letters for [a-z] with
re.IGNORECASE). -/

/-- Python str whitespace class (the ASCII part of regex backslash-s and
of str.strip). -/
def isPyWs (c : Char) : Bool :=
  c = ' ' ∨ c = '\t' ∨ c = '\n' ∨ c = '\r' ∨ c = '\x0b' ∨ c = '\x0c'

/-- Scanner for one lazy bracketed span: returns the remainder after the
first closing character, failing if a newline comes first (the lazy dot
of the pattern cannot cross a newline). -/
def splitAtClose (cl : Char) : List Char → Option (List Char)
  | [] => none
  | c :: rest =>
    if c = cl then some rest
    else if c = '\n' then none
    else splitAtClose cl rest

/-- Fuel-indexed scanner for the patterns bracketed-span and
parenthesized-span and music-note-span: each opening character whose
span closes before a newline is removed together with the span. -/
def stripDelimGo (op cl : Char) : ℕ → List Char → List Char
  | 0, s => s
  | _ + 1, [] => []
  | n + 1, c :: rest =>
    if c = op then
      match splitAtClose cl rest with
      | some rest2 => stripDelimGo op cl n rest2
      | none => c :: stripDelimGo op cl n rest
    else c :: stripDelimGo op cl n rest

/-- re.sub of one delimited-span pattern with the empty string.  The
fuel s.length dominates the number of consumed characters, so the scan
always completes. -/
def stripDelim (op cl : Char) (s : List Char) : List Char :=
  stripDelimGo op cl s.length s

/-- After an opening angle-pipe, consume one or more ASCII letters then
pipe and closing angle, returning the remainder. -/
def tagTail (seenLetter : Bool) : List Char → Option (List Char)
  | [] => none
  | '|' :: '>' :: rest => if seenLetter then some rest else none
  | c :: rest => if c.isAlpha then tagTail true rest else none

/-- Fuel-indexed scanner for the language-tag pattern (angle, pipe, one
or more letters, pipe, angle). -/
def stripLangTagsGo : ℕ → List Char → List Char
  | 0, s => s
  | _ + 1, [] => []
  | n + 1, c :: rest =>
    if c = '<' then
      match rest with
      | '|' :: rest2 =>
        match tagTail false rest2 with
        | some rest3 => stripLangTagsGo n rest3
        | none => c :: stripLangTagsGo n rest
      | _ => c :: stripLangTagsGo n rest
    else c :: stripLangTagsGo n rest

/-- re.sub of the language-tag pattern with the empty string. -/
def stripLangTags (s : List Char) : List Char := stripLangTagsGo s.length s

/-- Line 91: collapse every whitespace run to a single space. -/
def collapseWsGo (prevWs : Bool) : List Char → List Char
  | [] => []
  | c :: rest =>
    if isPyWs c then
      if prevWs then collapseWsGo true rest
      else ' ' :: collapseWsGo true rest
    else c :: collapseWsGo false rest

/-- re.sub of one-or-more whitespace with a single space. -/
def collapseWs (s : List Char) : List Char := collapseWsGo false s

/-- Characters of the leading-punctuation class comma, period, bang,
question mark. -/
def isLeadPunct (c : Char) : Bool := c = ',' ∨ c = '.' ∨ c = '!' ∨ c = '?'

/-- Line 92: remove an anchored run of optional whitespace followed by
one or more punctuation characters; if no punctuation follows the
whitespace the pattern does not match and the text is unchanged. -/
def stripLeadPunct (s : List Char) : List Char :=
  match s.dropWhile isPyWs with
  | c :: rest2 =>
    if isLeadPunct c then (c :: rest2).dropWhile isLeadPunct else s
  | [] => s

/-- Python str.strip: drop whitespace from both ends. -/
def pyStrip (s : List Char) : List Char :=
  ((s.dropWhile isPyWs).reverse.dropWhile isPyWs).reverse

/-- Python str.strip on a String. -/
def pyStripS (s : String) : String := String.mk (pyStrip s.data)

/-- Lines 96-97: capitalize the first character when it is not an
uppercase letter (upper-casing a caseless character keeps it). -/
def capitalizeFirst : List Char → List Char
  | [] => []
  | c :: rest => if c.isUpper then c :: rest else c.toUpper :: rest

/-- clean_translation_text, lines 74-99 of dub_video.py: empty input
returns the empty string; otherwise the four artifact patterns are
removed, whitespace is collapsed, leading punctuation and surrounding
whitespace are stripped, and the first letter is capitalized. -/
def clean_translation_text (s : String) : String :=
  if s = "" then ""
  else
    String.mk
      (capitalizeFirst
        (pyStrip
          (stripLeadPunct
            (collapseWs
              (stripDelim '♪' '♪'
                (stripDelim '(' ')'
                  (stripDelim '[' ']'
                    (stripLangTags s.data))))))))

/-! ## Per-segment gate of create_dub_track (dub_video.py lines 369-383)
and of generate_tts_with_model (lines 191-196). -/

/-- What happens to one transcript segment at the top of the for loop of
create_dub_track: either the segment is skipped with no synthesis call,
or generate_tts_with_model is invoked on the cleaned text. -/
inductive SegAction where
  | skipped
  | synth (cleaned : String)
deriving DecidableEq

/-- Lines 370-378: skip when the raw text is empty or its stripped
length is below 3; then clean, and skip when the cleaned text is empty;
otherwise synthesize the cleaned text. -/
def create_dub_track_gate (raw_text : String) : SegAction :=
  if raw_text = "" ∨ (pyStripS raw_text).length < 3 then .skipped
  else
    if clean_translation_text raw_text = "" then .skipped
    else .synth (clean_translation_text raw_text)

/-- Line 195 of generate_tts_with_model: the dispatcher itself refuses
text that is empty or whose stripped length is below 2, returning False
before trying any backend. -/
def tts_text_gate (text : String) : Bool :=
  if text = "" ∨ (pyStripS text).length < 2 then false else true

/-! ## TranslationRouter: get_translation_model and translate_segments
(dub_video.py lines 238-307) and the per-language dub loop of main
(lines 609-637). -/

/-- A transcript segment as produced by the ASR collaborator (start and
end in seconds plus text; the dict key end is called stop here because
end is reserved). -/
structure Seg where
  start : ℚ
  stop : ℚ
  text : String
deriving DecidableEq

/-- Lines 248-255: the static capability table mapping a language pair
to a translation model name.  Pairs absent from the dict and pairs
explicitly mapped to None both yield none under dict.get. -/
def lang_map_model (p : String × String) : Option String :=
  if p = (("en" : String), ("ml" : String)) then some ("Helsinki-NLP/opus-mt-en-ml")
  else if p = (("en" : String), ("hi" : String)) then some ("Helsinki-NLP/opus-mt-en-hi")
  else if p = (("en" : String), ("ta" : String)) then some ("Helsinki-NLP/opus-mt-en-ta")
  else none

/-- A loaded translation model is modelled as its per-sentence effect:
some translated text, or none when the call raises (the inner
try-except of translate_segments). -/
abbrev TransModel := String → Option String

/-- Lines 257-265 without the cache (the caching idiom is modelled
separately as get_or_load): a model is loaded only when the capability
table names one, and loading itself may fail (loadOK none), in which
case None is stored and returned. -/
def translation_model_for (loadOK : String → Option TransModel)
    (src_lang tgt_lang : String) : Option TransModel :=
  match lang_map_model (src_lang, tgt_lang) with
  | some name => loadOK name
  | none => none

/-- translate_segments, lines 273-307.  whisper_translate is the result
of the Whisper translate call when both the model and the audio path are
available.  When the target is not English and no translation model
exists, the final return statement hands back the input segments
unchanged. -/
def translate_segments (segments : List Seg) (src_lang tgt_lang : String)
    (whisper_translate : Option (List Seg)) (trans_model : Option TransModel) :
    List Seg :=
  if tgt_lang = "en" ∧ src_lang ≠ "en" then
    match whisper_translate with
    | some segs => segs
    | none => segments
  else if src_lang = "en" ∧ tgt_lang ≠ "en" then
    match trans_model with
    | some tm =>
      segments.map fun seg =>
        if pyStripS seg.text ≠ "" then
          match tm (pyStripS seg.text) with
          | some tr => { seg with text := tr }
          | none => seg
        else seg
    | none => segments
  else segments

/-- One audio track recorded by main into audio_tracks and hence into
the manifest: its language code and the segment list whose synthesized
clips fed it. -/
structure TrackRec where
  lang : String
  segs : List Seg
deriving DecidableEq

/-- The for loop over target languages at lines 609-637 of main:
English is handled earlier, a target equal to the detected language is
skipped, every other target is translated from English (with the already
computed English base segments) and create_dub_track is run; the track
is appended whenever the merged file exists (dub_ok, an external ffmpeg
and pydub success oracle).  The loop never aborts. -/
def dub_other_langs (detected : String) (base_segs : List Seg)
    (loadOK : String → Option TransModel) (dub_ok : String → Bool) :
    List String → List TrackRec
  | [] => []
  | tgt :: rest =>
    if tgt = "en" then dub_other_langs detected base_segs loadOK dub_ok rest
    else if detected = tgt then dub_other_langs detected base_segs loadOK dub_ok rest
    else
      (if dub_ok tgt then
        [⟨tgt, translate_segments base_segs ("en") tgt none
                (translation_model_for loadOK ("en") tgt)⟩]
      else []) ++ dub_other_langs detected base_segs loadOK dub_ok rest

/-! ## DubPipelineOrchestrator entry: get_video_duration (dub_video.py
lines 57-65) and the first steps of main (lines 496-531). -/

/-- Outcome of the opening steps of main: either sys.exit with a code,
or the run proceeds carrying the measured video duration. -/
inductive EarlyOutcome where
  | exited (code : ℕ)
  | running (video_duration : ℚ)
deriving DecidableEq

/-- get_video_duration, lines 57-65: the ffprobe output is parsed as a
float, and any failure is swallowed by the bare except returning 0. -/
def get_video_duration (probe : Option ℚ) : ℚ :=
  match probe with
  | some d => d
  | none => 0

/-- Lines 496-531 of main: a missing input file exits with status 1,
a failed audio extraction exits with status 1, and otherwise the run
continues with whatever get_video_duration returned. -/
def main_early (input_exists extract_ok : Bool) (duration_probe : Option ℚ) :
    EarlyOutcome :=
  if input_exists = false then .exited 1
  else if extract_ok = false then .exited 1
  else .running (get_video_duration duration_probe)

/-! ## ModelCache: the caching idiom of get_tts_model_for_language
(dub_video.py lines 128-189) and get_translation_model (lines 238-271):
if key not in cache, store the load result (the handle on success, None
on failure) and afterwards always return the stored entry. -/

/-- Lookup in the cache dict: none models key-not-present, some none
models a stored unavailable sentinel, some (some h) a stored handle. -/
def lookupCache {V : Type} : List (String × Option V) → String → Option (Option V)
  | [], _ => none
  | (k2, v) :: rest, k => if k2 = k then some v else lookupCache rest k

/-- Cache state together with bookkeeping for the proofs: a counter of
load attempts made so far and the chronological list of keys for which
a load attempt happened. -/
structure CacheTrace (V : Type) where
  entries : List (String × Option V)
  attempts : ℕ
  loadLog : List String

/-- The guarded-load idiom.  loader takes the global attempt index, so
two attempts for the same key could observe different environments; the
cache must prevent that second attempt. -/
def get_or_load {V : Type} (loader : ℕ → String → Option V) (s : CacheTrace V)
    (k : String) : Option V × CacheTrace V :=
  match lookupCache s.entries k with
  | some v => (v, s)
  | none =>
    (loader s.attempts k,
      ⟨(k, loader s.attempts k) :: s.entries, s.attempts + 1, s.loadLog ++ [k]⟩)

/-- A run-long sequence of model requests processed through the cache. -/
def runRequests {V : Type} (loader : ℕ → String → Option V) (s : CacheTrace V) :
    List String → List (Option V) × CacheTrace V
  | [] => ([], s)
  | k :: ks =>
    ((get_or_load loader s k).1 :: (runRequests loader (get_or_load loader s k).2 ks).1,
      (runRequests loader (get_or_load loader s k).2 ks).2)

/-- The empty cache at the start of a run (module-level empty dicts). -/
def initCache {V : Type} : CacheTrace V := ⟨[], 0, []⟩

/-! ## Clip selection after synthesis: dub_video.py lines 385-395. -/

/-- Lines 385-395 of create_dub_track: a segment whose synthesis call
succeeded and whose raw file exists contributes a clip at the original
start and end, whose file is the speed-adjusted output when that file
exists and otherwise the raw synthesis output; other segments contribute
nothing. -/
def record_clip (i : ℕ) (seg : Seg) (cleaned : String)
    (tts_success raw_exists adj_exists : Bool) (raw_path adj_path : String) :
    Option TTSSeg :=
  if tts_success && raw_exists then
    some ⟨i, seg.start, seg.stop, cleaned, if adj_exists then adj_path else raw_path⟩
  else none

/-! ## Helper lemmas -/

theorem atempo_chain_prod (s : ℚ) : (atempo_chain s).prod = s := by
  unfold atempo_chain
  split
  · simp only [List.prod_cons, List.prod_nil]
    ring
  · simp

theorem clampSpeed_of_mem (s : ℚ) (h1 : 1/2 ≤ s) (h2 : s ≤ 5/2) : clampSpeed s = s := by
  unfold clampSpeed
  rw [min_eq_right h2, max_eq_right h1]

theorem clampSpeed_of_lt (s : ℚ) (h : s < 1/2) : clampSpeed s = 1/2 := by
  unfold clampSpeed
  rw [min_eq_right (h.le.trans (by norm_num)), max_eq_left h.le]

theorem clampSpeed_of_gt (s : ℚ) (h : 5/2 < s) : clampSpeed s = 5/2 := by
  unfold clampSpeed
  rw [min_eq_left h.le, max_eq_right (by norm_num)]

theorem adjust_audio_speed_pos (r d : ℚ) (hr : 0 < r) (hd : 0 < d) :
    adjust_audio_speed (some r) d =
      SpeedAdjustResult.scaled (atempo_chain (clampSpeed (r / d))) := by
  have h : ¬(r ≤ 0 ∨ d ≤ 0) := by
    push_neg
    exact ⟨hr, hd⟩
  simp [adjust_audio_speed, h]

theorem output_duration_pos (r d : ℚ) (hr : 0 < r) (hd : 0 < d) :
    output_duration (some r) d r = r / clampSpeed (r / d) := by
  rw [output_duration, adjust_audio_speed_pos r d hr hd]
  simp [atempo_chain_prod]

theorem overlayAt_length (base : List ℤ) :
    ∀ (clip : List ℤ) (pos : ℕ), (overlayAt base clip pos).length = base.length := by
  induction base with
  | nil => intro clip pos; cases pos <;> rfl
  | cons b bs ih =>
    intro clip pos
    cases pos with
    | zero =>
      cases clip with
      | nil => rfl
      | cons c cs => simp [overlayAt, ih]
    | succ p => simp [overlayAt, ih]

theorem mergeStep_length (fs : String → Option (List ℤ)) (base : List ℤ) (seg : TTSSeg) :
    (mergeStep fs base seg).length = base.length := by
  unfold mergeStep
  cases fs seg.tts_file with
  | none => rfl
  | some clip => simp [overlayAt_length]

theorem merge_foldl_length (fs : String → Option (List ℤ)) (segs : List TTSSeg) :
    ∀ base : List ℤ, (List.foldl (mergeStep fs) base segs).length = base.length := by
  induction segs with
  | nil => intro base; rfl
  | cons s rest ih =>
    intro base
    rw [List.foldl_cons, ih, mergeStep_length]

theorem merge_with_timing_length (fs : String → Option (List ℤ)) (segs : List TTSSeg)
    (total : ℚ) : (merge_with_timing fs segs total).length = msOf total := by
  rw [merge_with_timing, merge_foldl_length, List.length_replicate]

theorem c1_wit_ratio_bounds : (1:ℚ)/2 ≤ 3 / 2 ∧ (3:ℚ) / 2 ≤ 5/2 := by norm_num

theorem msOf_cast_eq (total : ℚ) (h : 0 ≤ total) :
    ((msOf total : ℚ)) = ((⌊total * 1000⌋ : ℤ) : ℚ) := by
  have hfl : (0:ℤ) ≤ ⌊total * 1000⌋ := Int.floor_nonneg.mpr (by positivity)
  rw [msOf]
  exact_mod_cast congrArg (fun z : ℤ => (z : ℚ)) (Int.toNat_of_nonneg hfl)

end ClassAiHub

namespace ClassAiHub

/-! ## Claim C6 -/

/-- Claim C6 (confirmed): for every clip with positive raw duration r
and positive target duration d, adjust_audio_speed computes speed equal
to r divided by d, clamps it to the inclusive range from one half to
five halves, and whenever the clamped speed exceeds 2 it applies the
tempo change as the two-stage chain speed over two followed by 2, whose
product equals the clamped speed, rather than a single stage. -/
theorem c6_speed_clamp_two_stage (r d : ℚ) (hr : 0 < r) (hd : 0 < d) :
    adjust_audio_speed (some r) d =
      SpeedAdjustResult.scaled (atempo_chain (clampSpeed (r / d))) ∧
    (1/2 ≤ clampSpeed (r / d) ∧ clampSpeed (r / d) ≤ 5/2) ∧
    (2 < clampSpeed (r / d) →
      atempo_chain (clampSpeed (r / d)) = [clampSpeed (r / d) / 2, 2] ∧
      (atempo_chain (clampSpeed (r / d))).prod = clampSpeed (r / d)) ∧
    (clampSpeed (r / d) ≤ 2 →
      atempo_chain (clampSpeed (r / d)) = [clampSpeed (r / d)]) := by
  refine ⟨adjust_audio_speed_pos r d hr hd, ⟨le_max_left _ _, ?_⟩, ?_, ?_⟩
  · exact max_le (by norm_num) (min_le_left _ _)
  · intro h
    exact ⟨by simp [atempo_chain, h], atempo_chain_prod _⟩
  · intro h
    simp [atempo_chain, not_lt.mpr h]

/-- Witness for C6 at r = 5, d = 2. -/
theorem c6_speed_clamp_two_stage_wit :
    0 < (5:ℚ) ∧ 0 < (2:ℚ) ∧
    adjust_audio_speed (some 5) 2 =
      SpeedAdjustResult.scaled (atempo_chain (clampSpeed (5 / 2))) :=
  ⟨by decide, by decide, (c6_speed_clamp_two_stage 5 2 (by decide) (by decide)).1⟩

/-! ## Claim C7 -/

/-- Claim C7 (confirmed): when the probed duration or the target
duration is non-positive, and when the probe itself fails (the internal
exception path), adjust_audio_speed copies the original clip unchanged
instead of dropping it or raising, so the output duration equals the
input duration. -/
theorem c7_nonpositive_or_failure_copies (d r : ℚ) :
    (adjust_audio_speed none d = SpeedAdjustResult.copied ∧
      output_duration none d r = r) ∧
    (∀ c : ℚ, c ≤ 0 ∨ d ≤ 0 →
      adjust_audio_speed (some c) d = SpeedAdjustResult.copied ∧
      output_duration (some c) d r = r) := by
  refine ⟨⟨rfl, rfl⟩, ?_⟩
  intro c h
  refine ⟨by simp [adjust_audio_speed, h], ?_⟩
  simp [output_duration, adjust_audio_speed, h]

/-- Witness for C7 at c = 0, d = 1, r = 7. -/
theorem c7_nonpositive_or_failure_copies_wit :
    ((0:ℚ) ≤ 0 ∨ (1:ℚ) ≤ 0) ∧
    (adjust_audio_speed (some 0) 1 = SpeedAdjustResult.copied ∧
      output_duration (some 0) 1 7 = 7) :=
  ⟨by decide, (c7_nonpositive_or_failure_copies 1 7).2 0 (by decide)⟩

/-! ## Claim C10 -/

/-- Claim C10 (confirmed): a segment whose synthesis succeeded and whose
raw file exists, but whose speed-adjusted output file was not produced,
is recorded with the raw unadjusted file at the original segment start
and end rather than being dropped. -/
theorem c10_missing_adjusted_uses_raw (i : ℕ) (seg : Seg)
    (cleaned raw_path adj_path : String) :
    record_clip i seg cleaned true true false raw_path adj_path =
      some ⟨i, seg.start, seg.stop, cleaned, raw_path⟩ := rfl

/-! ## Claim C1 -/

/-- Counterexample to claim C1 as stated: at raw duration 3 and target
duration 1 the ratio 3 lies outside the clamp range, yet the clip is not
returned unscaled: the code applies the clamped factor five halves and
the output duration is six fifths, not 3. -/
theorem c1_out_of_range_not_unscaled_cex :
    ¬((1:ℚ)/2 ≤ 3 / 1 ∧ (3:ℚ) / 1 ≤ 5/2) ∧
    output_duration (some 3) 1 3 = 6/5 ∧ (6/5 : ℚ) ≠ 3 := by
  refine ⟨by norm_num, ?_, by norm_num⟩
  norm_num [output_duration, adjust_audio_speed, atempo_chain, clampSpeed]

/-- Claim C1 as amended: for positive measured raw duration r and
positive target duration d, when the ratio r over d lies in the clamp
range the reconciled duration equals d exactly (hence within any
epsilon); when the ratio is below one half the clip is slowed by the
clamped factor one half, giving duration 2 r; when the ratio is above
five halves the clip is compressed by the clamped factor five halves,
giving duration two fifths of r; the clip is never returned unscaled for
an out-of-range ratio. -/
theorem c1_reconcile_duration_amended (r d : ℚ) (hr : 0 < r) (hd : 0 < d) :
    ((1/2 ≤ r / d ∧ r / d ≤ 5/2) → output_duration (some r) d r = d) ∧
    (r / d < 1/2 → output_duration (some r) d r = 2 * r) ∧
    (5/2 < r / d → output_duration (some r) d r = 2/5 * r) := by
  refine ⟨?_, ?_, ?_⟩
  · intro h
    rw [output_duration_pos r d hr hd, clampSpeed_of_mem _ h.1 h.2]
    field_simp
  · intro h
    rw [output_duration_pos r d hr hd, clampSpeed_of_lt _ h]
    ring
  · intro h
    rw [output_duration_pos r d hr hd, clampSpeed_of_gt _ h]
    ring

/-- Witness for the amended C1 at r = 3, d = 2 (ratio three halves,
inside the clamp range; reconciled duration is exactly 2). -/
theorem c1_reconcile_duration_amended_wit :
    0 < (3:ℚ) ∧ 0 < (2:ℚ) ∧ ((1:ℚ)/2 ≤ 3 / 2 ∧ (3:ℚ) / 2 ≤ 5/2) ∧
    output_duration (some 3) 2 3 = 2 :=
  ⟨by decide, by decide, c1_wit_ratio_bounds,
    (c1_reconcile_duration_amended 3 2 (by decide) (by decide)).1 c1_wit_ratio_bounds⟩

/-! ## Claim C2 -/

/-- Counterexample to claim C2 as stated: with one clip whose file is
missing and a total duration of three two-thousandths of a second, the
composed track lasts one millisecond, which is not equal to the total
video duration: the pydub base buffer is floored to whole milliseconds. -/
theorem c2_track_duration_exact_cex :
    create_dub_track_duration (fun _ => none) [⟨0, 0, 0, ("x"), ("f.wav")⟩] (3/2000)
      = 1/1000 ∧ (1/1000 : ℚ) ≠ 3/2000 := by
  constructor
  · norm_num [create_dub_track_duration, merge_with_timing, mergeStep, msOf]
  · norm_num

/-- Claim C2 as amended: with zero clips the produced track is the
ffmpeg silent track of exactly the total video duration; with at least
one clip the track duration is the total duration floored to whole
milliseconds, which is within one millisecond below the total video
duration but not always exactly equal to it. -/
theorem c2_track_duration_amended (fs : String → Option (List ℤ)) (segs : List TTSSeg)
    (total : ℚ) (htotal : 0 ≤ total) :
    (segs.isEmpty = true → create_dub_track_duration fs segs total = total) ∧
    (segs.isEmpty = false →
      create_dub_track_duration fs segs total = (msOf total : ℚ) / 1000 ∧
      (msOf total : ℚ) / 1000 ≤ total ∧
      total - (msOf total : ℚ) / 1000 < 1/1000) := by
  constructor
  · intro h
    simp [create_dub_track_duration, h]
  · intro h
    have hlen : create_dub_track_duration fs segs total = (msOf total : ℚ) / 1000 := by
      simp [create_dub_track_duration, h, merge_with_timing_length]
    have h1 : ((⌊total * 1000⌋ : ℤ) : ℚ) ≤ total * 1000 := Int.floor_le _
    have h2 : total * 1000 < ((⌊total * 1000⌋ : ℤ) : ℚ) + 1 := Int.lt_floor_add_one _
    rw [hlen, msOf_cast_eq total htotal]
    refine ⟨rfl, by linarith, by linarith⟩

/-- Witness for the amended C2 at total duration 1 with no clips. -/
theorem c2_track_duration_amended_wit :
    (0 ≤ (1:ℚ)) ∧ List.isEmpty ([] : List TTSSeg) = true ∧
    create_dub_track_duration (fun _ => none) [] 1 = 1 :=
  ⟨by decide, rfl, (c2_track_duration_amended (fun _ => none) [] 1 (by decide)).1 rfl⟩

/-! ## Claim C9 -/

/-- Counterexample to claim C9 as stated: the silent base buffer does
not have exactly the total duration: at total duration one
four-hundredth of a second the buffer holds 2 milliseconds while the
total is two and a half milliseconds. -/
theorem c9_compose_buffer_exact_cex :
    ((merge_with_timing (fun _ => some [1]) [] (1/400)).length : ℚ) = 2 ∧
    ((1:ℚ)/400) * 1000 ≠ 2 := by
  constructor
  · norm_num [merge_with_timing, msOf]
    norm_num [Int.toNat]
  · norm_num

/-- Claim C9 as amended: compose starts from a silent buffer of the
total duration floored to whole milliseconds (not exactly the total
duration), processes clips in list order which is increasing start
order, skips a clip whose file is missing without failing, overlays a
clip whose file exists at offset floor of start times 1000 milliseconds,
and with an empty clip list the result is silence for its entire
duration. -/
theorem c9_compose_amended :
    (∀ (fs : String → Option (List ℤ)) (segs : List TTSSeg) (total : ℚ),
      (merge_with_timing fs segs total).length = msOf total) ∧
    (∀ (fs : String → Option (List ℤ)) (total : ℚ),
      merge_with_timing fs [] total = List.replicate (msOf total) 0) ∧
    (∀ (fs : String → Option (List ℤ)) (seg : TTSSeg) (rest : List TTSSeg) (total : ℚ),
      fs seg.tts_file = none →
      merge_with_timing fs (seg :: rest) total = merge_with_timing fs rest total) ∧
    (∀ (fs : String → Option (List ℤ)) (seg : TTSSeg) (rest : List TTSSeg)
      (clip : List ℤ) (total : ℚ),
      fs seg.tts_file = some clip →
      merge_with_timing fs (seg :: rest) total =
        List.foldl (mergeStep fs)
          (overlayAt (List.replicate (msOf total) 0) clip (msOf seg.start)) rest) := by
  refine ⟨merge_with_timing_length, fun fs total => rfl, ?_, ?_⟩
  · intro fs seg rest total h
    simp [merge_with_timing, mergeStep, h]
  · intro fs seg rest clip total h
    simp [merge_with_timing, mergeStep, h]

/-- Witness for the amended C9: a clip with a missing file is skipped. -/
theorem c9_compose_amended_wit :
    ((fun _ => (none : Option (List ℤ))) (TTSSeg.tts_file ⟨0, 0, 0, ("x"), ("f.wav")⟩)
        = none) ∧
    merge_with_timing (fun _ => none) [⟨0, 0, 0, ("x"), ("f.wav")⟩] 1 =
      merge_with_timing (fun _ => none) [] 1 :=
  ⟨rfl, c9_compose_amended.2.2.1 (fun _ => none) ⟨0, 0, 0, ("x"), ("f.wav")⟩ [] 1 rfl⟩

/-! ## Claim C4 -/

/-- Counterexample to claim C4 as stated: a run whose audio extraction
succeeded but whose duration probe failed is not aborted: main continues
with video duration 0 instead of exiting with a non-zero status. -/
theorem c4_duration_failure_fatal_cex :
    main_early true true none = EarlyOutcome.running 0 ∧
    main_early true true none ≠ EarlyOutcome.exited 1 := by
  constructor
  · rfl
  · decide

/-- Claim C4 as amended: a missing input file or a failed audio
extraction aborts the run with exit status 1, but a failure to obtain
the total duration does not abort: get_video_duration swallows it and
returns 0, and the run proceeds with that value. -/
theorem c4_abort_behavior_amended (p : Option ℚ) :
    (∀ e : Bool, main_early false e p = EarlyOutcome.exited 1) ∧
    main_early true false p = EarlyOutcome.exited 1 ∧
    main_early true true p = EarlyOutcome.running (get_video_duration p) ∧
    get_video_duration none = 0 :=
  ⟨fun _ => rfl, rfl, rfl, rfl⟩

/-! ## Claim C5 -/

/-- Counterexample to claim C5 as stated: the raw text of a segment can
pass the length gate (it checks the raw text, not the sanitized text)
while its sanitized text has fewer than 3 characters, and synthesis is
then attempted: a bracketed marker plus two letters sanitizes to a
two-character string that create_dub_track sends to the synthesizer and
that the synthesizer gate accepts. -/
theorem c5_short_sanitized_skipped_cex :
    create_dub_track_gate ("[Music] ab") = SegAction.synth ("Ab") ∧
    (clean_translation_text ("[Music] ab")).length < 3 ∧
    tts_text_gate ("Ab") = true := by
  refine ⟨by decide, by decide, by decide⟩

/-- Claim C5 as amended: the sanitizer returns the empty string on empty
input; a segment is skipped with no synthesis attempt when its raw text
is empty or its stripped raw length is below 3, or when its sanitized
text is empty; every synthesized text is the nonempty sanitized text;
and the synthesizer itself additionally refuses text whose stripped
length is below 2 (so a sanitized text of length 2 is still attempted). -/
theorem c5_segment_gate_amended :
    clean_translation_text ("") = "" ∧
    (∀ t : String, t = "" ∨ (pyStripS t).length < 3 →
      create_dub_track_gate t = SegAction.skipped) ∧
    (∀ t : String, clean_translation_text t = "" →
      create_dub_track_gate t = SegAction.skipped) ∧
    (∀ t c : String, create_dub_track_gate t = SegAction.synth c →
      c = clean_translation_text t ∧ c ≠ "") ∧
    (∀ c : String, (pyStripS c).length < 2 → tts_text_gate c = false) := by
  refine ⟨rfl, ?_, ?_, ?_, ?_⟩
  · intro t h
    unfold create_dub_track_gate
    rw [if_pos h]
  · intro t h
    unfold create_dub_track_gate
    by_cases h1 : t = "" ∨ (pyStripS t).length < 3
    · rw [if_pos h1]
    · rw [if_neg h1, if_pos h]
  · intro t c h
    unfold create_dub_track_gate at h
    by_cases h1 : t = "" ∨ (pyStripS t).length < 3
    · rw [if_pos h1] at h
      exact absurd h (by simp)
    · rw [if_neg h1] at h
      by_cases h2 : clean_translation_text t = ""
      · rw [if_pos h2] at h
        exact absurd h (by simp)
      · rw [if_neg h2] at h
        injection h with hc
        exact ⟨hc.symm, hc ▸ h2⟩
  · intro c h
    unfold tts_text_gate
    rw [if_pos (Or.inr h)]

/-- Witness for the amended C5 at the empty segment text. -/
theorem c5_segment_gate_amended_wit :
    (("" : String) = "" ∨ (pyStripS ("")).length < 3) ∧
    create_dub_track_gate ("") = SegAction.skipped :=
  ⟨by decide, c5_segment_gate_amended.2.1 ("") (by decide)⟩

/-! ## Claim C3 helpers -/

theorem translate_segments_no_model (base : List Seg) (tgt : String) (h : tgt ≠ "en") :
    translate_segments base ("en") tgt none none = base := by
  simp [translate_segments, h]

theorem translation_model_for_none (loadOK : String → Option TransModel) (tgt : String)
    (h : lang_map_model ((("en") : String), tgt) = none) :
    translation_model_for loadOK ("en") tgt = none := by
  simp [translation_model_for, h]

/-! ## Claim C3 -/

/-- Counterexample to claim C3 as stated: requesting the target language
fr, for which no translation model is registered from English, does not
skip that language: the loop passes the segments through untranslated,
still produces a track for fr, and records it in the manifest list ahead
of the routable language hi. -/
theorem c3_unroutable_language_skipped_cex :
    dub_other_langs ("en") [⟨0, 2, ("hello")⟩]
        (fun _ => some (fun t => some (String.append ("T:") t))) (fun _ => true)
        [("fr"), ("hi")] =
      [⟨("fr"), [⟨0, 2, ("hello")⟩]⟩, ⟨("hi"), [⟨0, 2, ("T:hello")⟩]⟩] ∧
    ("fr") ∈ (dub_other_langs ("en") [⟨0, 2, ("hello")⟩]
        (fun _ => some (fun t => some (String.append ("T:") t))) (fun _ => true)
        [("fr"), ("hi")]).map TrackRec.lang := by
  refine ⟨by decide, by decide⟩

/-- Claim C3 as amended: a requested target language with no registered
translation route from English is not skipped and not absent from the
manifest: the pipeline passes the English segments through untranslated
and still produces and records a track for it (whenever the external
merge succeeds, as it does for every language in the loop), while every
other requested language is likewise processed and recorded; the run is
never aborted for a missing route. -/
theorem c3_unroutable_language_amended :
    (∀ (detected : String) (base_segs : List Seg)
      (loadOK : String → Option TransModel) (dub_ok : String → Bool)
      (targets : List String) (tgt : String),
      tgt ∈ targets → tgt ≠ "en" → detected ≠ tgt →
      lang_map_model ((("en") : String), tgt) = none → dub_ok tgt = true →
      TrackRec.mk tgt base_segs ∈
        dub_other_langs detected base_segs loadOK dub_ok targets) ∧
    (∀ (detected : String) (base_segs : List Seg)
      (loadOK : String → Option TransModel) (dub_ok : String → Bool)
      (targets : List String) (tgt2 : String),
      tgt2 ∈ targets → tgt2 ≠ "en" → detected ≠ tgt2 → dub_ok tgt2 = true →
      ∃ tr ∈ dub_other_langs detected base_segs loadOK dub_ok targets,
        tr.lang = tgt2) := by
  constructor
  · intro detected base loadOK dub_ok targets tgt hmem hen hdet hroute hok
    induction targets with
    | nil => cases hmem
    | cons t rest ih =>
      unfold dub_other_langs
      rcases List.mem_cons.mp hmem with heq | hmem2
      · subst heq
        rw [if_neg hen, if_neg hdet]
        simp only [hok, if_true]
        rw [translation_model_for_none loadOK tgt hroute,
          translate_segments_no_model base tgt hen]
        exact List.mem_append_left _ (List.mem_singleton_self _)
      · have hr := ih hmem2
        split_ifs with h1 h2 h3
        · exact hr
        · exact hr
        · exact List.mem_append_right _ hr
        · exact List.mem_append_right _ hr
  · intro detected base loadOK dub_ok targets tgt2 hmem hen hdet hok
    induction targets with
    | nil => cases hmem
    | cons t rest ih =>
      unfold dub_other_langs
      rcases List.mem_cons.mp hmem with heq | hmem2
      · subst heq
        rw [if_neg hen, if_neg hdet]
        simp only [hok, if_true]
        exact ⟨_, List.mem_append_left _ (List.mem_singleton_self _), rfl⟩
      · rcases ih hmem2 with ⟨tr, htr, hl⟩
        split_ifs with h1 h2 h3
        · exact ⟨tr, htr, hl⟩
        · exact ⟨tr, htr, hl⟩
        · exact ⟨tr, List.mem_append_right _ htr, hl⟩
        · exact ⟨tr, List.mem_append_right _ htr, hl⟩

/-- Witness for the amended C3: the unroutable target fr is still
recorded, with the untranslated base segments, when it is the only
requested language. -/
theorem c3_unroutable_language_amended_wit :
    (("fr") ∈ [("fr")]) ∧ (("fr") : String) ≠ ("en") ∧
    (("en") : String) ≠ ("fr") ∧
    lang_map_model ((("en") : String), ("fr")) = none ∧
    ((fun _ => true) (("fr") : String) = true) ∧
    TrackRec.mk ("fr") [⟨0, 2, ("hello")⟩] ∈
      dub_other_langs ("en") [⟨0, 2, ("hello")⟩] (fun _ => none) (fun _ => true)
        [("fr")] :=
  ⟨by decide, by decide, by decide, by decide, rfl,
    c3_unroutable_language_amended.1 ("en") [⟨0, 2, ("hello")⟩] (fun _ => none)
      (fun _ => true) [("fr")] ("fr") (by decide) (by decide) (by decide)
      (by decide) rfl⟩

/-! ## Claim C8 helpers -/

theorem get_or_load_hit {V : Type} (loader : ℕ → String → Option V) (s : CacheTrace V)
    (k : String) (v : Option V) (h : lookupCache s.entries k = some v) :
    get_or_load loader s k = (v, s) := by
  simp [get_or_load, h]

theorem get_or_load_preserves {V : Type} (loader : ℕ → String → Option V)
    (s : CacheTrace V) (k k2 : String) (v : Option V)
    (h : lookupCache s.entries k = some v) :
    lookupCache (get_or_load loader s k2).2.entries k = some v := by
  cases hc : lookupCache s.entries k2 with
  | some w => simp [get_or_load, hc, h]
  | none =>
    have hne : k2 ≠ k := by
      intro he
      rw [he, h] at hc
      cases hc
    simp [get_or_load, hc, lookupCache, hne, h]

theorem get_or_load_present {V : Type} (loader : ℕ → String → Option V)
    (s : CacheTrace V) (k : String) :
    ∃ v, lookupCache (get_or_load loader s k).2.entries k = some v := by
  cases hc : lookupCache s.entries k with
  | some w => exact ⟨w, by simp [get_or_load, hc]⟩
  | none => exact ⟨loader s.attempts k, by simp [get_or_load, hc, lookupCache]⟩

theorem runRequests_preserves {V : Type} (loader : ℕ → String → Option V)
    (ks : List String) :
    ∀ (s : CacheTrace V) (k : String) (v : Option V),
      lookupCache s.entries k = some v →
      lookupCache (runRequests loader s ks).2.entries k = some v := by
  induction ks with
  | nil =>
    intro s k v h
    simpa [runRequests] using h
  | cons k2 ks ih =>
    intro s k v h
    simp only [runRequests]
    exact ih _ k v (get_or_load_preserves loader s k k2 v h)

theorem runRequests_present {V : Type} (loader : ℕ → String → Option V)
    (ks : List String) :
    ∀ (s : CacheTrace V) (k : String), k ∈ ks →
      ∃ v, lookupCache (runRequests loader s ks).2.entries k = some v := by
  induction ks with
  | nil =>
    intro s k h
    cases h
  | cons k2 ks ih =>
    intro s k h
    simp only [runRequests]
    rcases List.mem_cons.mp h with he | hm
    · subst he
      rcases get_or_load_present loader s k with ⟨v, hv⟩
      exact ⟨v, runRequests_preserves loader ks _ k v hv⟩
    · exact ih _ k hm

theorem get_or_load_inv {V : Type} (loader : ℕ → String → Option V) (s : CacheTrace V)
    (k : String) (h1 : s.loadLog.Nodup)
    (h2 : ∀ k2, k2 ∈ s.loadLog ↔ ∃ v, lookupCache s.entries k2 = some v) :
    (get_or_load loader s k).2.loadLog.Nodup ∧
    ∀ k2, k2 ∈ (get_or_load loader s k).2.loadLog ↔
      ∃ v, lookupCache (get_or_load loader s k).2.entries k2 = some v := by
  cases hc : lookupCache s.entries k with
  | some w =>
    simp only [get_or_load, hc]
    exact ⟨h1, h2⟩
  | none =>
    have hknot : k ∉ s.loadLog := by
      intro hk
      rcases (h2 k).1 hk with ⟨v, hv⟩
      rw [hv] at hc
      cases hc
    simp only [get_or_load, hc]
    constructor
    · rw [List.nodup_append]
      refine ⟨h1, List.nodup_singleton k, ?_⟩
      intro a ha hb
      rw [List.mem_singleton] at hb
      subst hb
      exact hknot ha
    · intro k2
      rw [List.mem_append, List.mem_singleton]
      by_cases hk2 : k = k2
      · subst hk2
        simp [lookupCache]
      · simp only [lookupCache, if_neg hk2]
        rw [← h2 k2]
        constructor
        · rintro (h | h)
          · exact h
          · exact absurd h.symm hk2
        · exact Or.inl

theorem runRequests_inv {V : Type} (loader : ℕ → String → Option V) (ks : List String) :
    ∀ s : CacheTrace V, s.loadLog.Nodup →
      (∀ k2, k2 ∈ s.loadLog ↔ ∃ v, lookupCache s.entries k2 = some v) →
      (runRequests loader s ks).2.loadLog.Nodup := by
  induction ks with
  | nil =>
    intro s h1 h2
    simpa [runRequests] using h1
  | cons k ks ih =>
    intro s h1 h2
    simp only [runRequests]
    rcases get_or_load_inv loader s k h1 h2 with ⟨h1a, h2a⟩
    exact ih _ h1a h2a

/-! ## Claim C8 -/

/-- Claim C8 (confirmed): over any sequence of model requests in a run,
the cache makes at most one load attempt per distinct key (the log of
load events has no duplicate key); after a key has been requested the
cache holds a stored result for it, the loaded handle or the None
sentinel, a state distinct from never-attempted; and any request for a
key with a stored result returns that stored result with the cache
unchanged, so no load is re-attempted. -/
theorem c8_cache_single_load :
    (∀ (V : Type) (loader : ℕ → String → Option V) (reqs : List String),
      (runRequests loader initCache reqs).2.loadLog.Nodup) ∧
    (∀ (V : Type) (loader : ℕ → String → Option V) (reqs : List String) (k : String),
      k ∈ reqs →
      ∃ v, lookupCache (runRequests loader initCache reqs).2.entries k = some v) ∧
    (∀ (V : Type) (loader : ℕ → String → Option V) (s : CacheTrace V) (k : String)
      (v : Option V), lookupCache s.entries k = some v →
      get_or_load loader s k = (v, s)) := by
  refine ⟨?_, ?_, ?_⟩
  · intro V loader reqs
    refine runRequests_inv loader reqs initCache List.nodup_nil ?_
    intro k2
    simp [initCache, lookupCache]
  · intro V loader reqs k h
    exact runRequests_present loader reqs initCache k h
  · intro V loader s k v h
    exact get_or_load_hit loader s k v h

/-- Witness for C8: a key with a stored handle is answered from the
cache with the state unchanged. -/
theorem c8_cache_single_load_wit :
    lookupCache [((("ml") : String), some (7:ℕ))] ("ml") = some (some 7) ∧
    get_or_load (fun n _ => some n) ⟨[(("ml"), some 7)], 1, [("ml")]⟩ ("ml") =
      (some 7, ⟨[(("ml"), some 7)], 1, [("ml")]⟩) :=
  ⟨by decide,
    c8_cache_single_load.2.2 ℕ (fun n _ => some n) ⟨[(("ml"), some 7)], 1, [("ml")]⟩
      ("ml") (some 7) (by decide)⟩

end ClassAiHub

